import Mathlib

set_option autoImplicit false

/-!
Verification of the paginated product-listing handler
(`backend/internal/handlers/products.go`, function `GetProducts`).

The handler is embedded as a pure function from an environment (store
snapshot plus failure flags) and a request (raw query strings, remote
address) to the ordered list of observable events it produces: log lines,
span start/end, header setting, query issuance, span attributes, and the
HTTP error or JSON body it writes.  Go `int` arithmetic is modelled as
64-bit two's-complement integers; `strconv.Atoi` as signed decimal parsing
bounded to the `int64` range; the `float64` conversions and division as
exact rational arithmetic followed by IEEE 754 round-to-nearest-even at 53
bits of precision, and `math.Ceil` as exact ceiling (exact on every
binary64 value reachable here).
-/

namespace Sample

/-- Modelled from the spec: `models.Product` (the `models` package is not
among the given sources).  A product record: identifier, text fields,
price, creation timestamp (spec section 3). -/
structure Product where
  id : Int
  name : String
  category : String
  brand : String
  model : String
  description : String
  price : Rat
  created_at : String
  deriving DecidableEq

/-- Modelled from the spec: `models.PaginatedResponse` (the `models`
package is not among the given sources).  The response envelope with JSON
fields `products`, `page`, `limit`, `total_pages`, `count`.  The
`products` field is a Go slice: `none` models a nil slice, `some l` a
non-nil slice with elements `l`. -/
structure PaginatedResponse where
  products : Option (List Product)
  page : Int
  limit : Int
  totalPages : Int
  count : Int
  deriving DecidableEq

/-- A minimal JSON value shape, enough to distinguish `null` from an
array; `arr n` is an array of `n` elements. -/
inductive JsonVal where
  | null
  | arr (n : Nat)
  deriving DecidableEq

/-- Go's `encoding/json` encodes a nil slice as `null` and a non-nil
slice as a JSON array of its elements. -/
def encodeProductsField : Option (List Product) → JsonVal
  | none => JsonVal.null
  | some l => JsonVal.arr l.length

/-- The product store reached through `h.db`: a snapshot of the
`products` table in id-ascending order (the fetch query orders by id),
plus flags saying whether each of the two queries fails. -/
structure Store where
  rows : List Product
  countFails : Bool
  selectFails : Bool

/-- An inbound request: the raw `page` and `limit` query strings
(`r.URL.Query().Get` yields the empty string when absent) and the remote
address used only in logging. -/
structure Request where
  pageStr : String
  limitStr : String
  remoteAddr : String

/-- Per-request environment: the store and whether encoding the response
body fails (`json.NewEncoder(w).Encode`). -/
structure Env where
  store : Store
  encodeFails : Bool

/-- Observable events of one handler execution, in order. -/
inductive Event where
  | logLine (msg : String)
  | spanStart
  | setHeaders
  | countIssued
  | selectIssued (limit offset : Int)
  | spanSetError (msg : String)
  | spanSetAttrs (page limit totalCount totalPages returnedCount : Int)
  | httpError (status : Int) (body : String)
  | writeBody (resp : PaginatedResponse)
  | spanEnd
  deriving DecidableEq

/-- Value of a nonempty digit string, accumulator form. -/
def digitsValAux (acc : Nat) : List Char → Option Nat
  | [] => some acc
  | c :: rest => if c.isDigit then digitsValAux (10 * acc + (c.toNat - 48)) rest else none

/-- Value of a digit string; `none` when empty or containing a non-digit. -/
def digitsVal : List Char → Option Nat
  | [] => none
  | l => digitsValAux 0 l

/-- Signed decimal parsing: optional leading sign, then one or more
digits (the syntax `strconv.Atoi` accepts). -/
def parseSigned (s : String) : Option Int :=
  match s.data with
  | '+' :: rest => (digitsVal rest).map (fun n => (n : Int))
  | '-' :: rest => (digitsVal rest).map (fun n => -(n : Int))
  | l => (digitsVal l).map (fun n => (n : Int))

/-- `strconv.Atoi`: signed decimal parse, erroring (here `none`) on
malformed input and on values outside the 64-bit `int` range. -/
def atoi (s : String) : Option Int :=
  match parseSigned s with
  | some n => if -(2 ^ 63) ≤ n ∧ n ≤ 2 ^ 63 - 1 then some n else none
  | none => none

/-- Lines 42-45: `page` defaults to 1 when parsing fails or the value is
below 1. -/
def normalizePage (s : String) : Int :=
  match atoi s with
  | some p => if p < 1 then 1 else p
  | none => 1

/-- Lines 47-50: `limit` defaults to 10 when parsing fails or the value
is outside [1,100]. -/
def normalizeLimit (s : String) : Int :=
  match atoi s with
  | some l => if l < 1 ∨ 100 < l then 10 else l
  | none => 10

/-- 64-bit two's-complement wraparound, the behaviour of Go `int`
arithmetic on a 64-bit platform. -/
def wrap64 (n : Int) : Int := (n + 2 ^ 63) % 2 ^ 64 - 2 ^ 63

/-- Line 52: `offset := (page - 1) * limit` in machine integers. -/
def offsetOf (req : Request) : Int :=
  wrap64 ((normalizePage req.pageStr - 1) * normalizeLimit req.limitStr)

/-- The count query `SELECT COUNT(*) FROM products`. -/
def countQuery (st : Store) : Except String Int :=
  if st.countFails then Except.error ("count query failed")
  else Except.ok (st.rows.length : Int)

/-- The fetch query `SELECT ... FROM products ORDER BY id LIMIT ? OFFSET ?`
against the snapshot; a negative OFFSET is rejected by the SQL layer. -/
def selectQuery (st : Store) (limit offset : Int) : Except String (List Product) :=
  if st.selectFails then Except.error ("select query failed")
  else if offset < 0 then Except.error ("select query failed")
  else Except.ok ((st.rows.drop offset.toNat).take limit.toNat)

/-- Round a rational to the nearest integer, ties to even. -/
def roundHalfEven (q : Rat) : Int :=
  if q - (Int.floor q : Rat) < 1/2 then Int.floor q
  else if 1/2 < q - (Int.floor q : Rat) then Int.floor q + 1
  else if 2 ∣ Int.floor q then Int.floor q else Int.floor q + 1

/-- The exponent of the spacing of IEEE 754 binary64 values around a
positive value: around `x` the representable values are the multiples of
`2 ^ roundExp x`. -/
def roundExp (x : Rat) : Int := Int.log 2 x - 52

/-- The spacing (unit in the last place) of binary64 values around `x`. -/
def ulpScale (x : Rat) : Rat := 2 ^ roundExp x

/-- Round a nonnegative rational to the nearest IEEE 754 binary64 value
(round to nearest, ties to even): the rounding that the `float64(...)`
conversions and the float64 division perform.  Exponent overflow (at
2^1024) is unreachable from 64-bit integer inputs and not modelled. -/
def floatRound (x : Rat) : Rat :=
  if x ≤ 0 then 0
  else (roundHalfEven (x / ulpScale x) : Rat) * ulpScale x

/-- Lines 80-81: `totalPages := int(math.Ceil(float64(totalCount) /
float64(limit)))`: both operands pass through `float64` rounding, the
division result is rounded again, and `math.Ceil` and the `int`
conversion are exact on the reachable values. -/
def totalPagesOf (totalCount limit : Int) : Int :=
  Int.ceil (floatRound (floatRound (totalCount : Rat) / floatRound (limit : Rat)))

/-- The rows a successful fetch returns for this environment and request. -/
def fetchedRows (env : Env) (req : Request) : List Product :=
  (env.store.rows.drop (offsetOf req).toNat).take (normalizeLimit req.limitStr).toNat

/-- The handler `GetProducts`, as the ordered list of events it emits.
The trailing `spanEnd` on every path is the deferred `span.End()`. -/
def getProducts (env : Env) (req : Request) : List Event :=
  [Event.logLine ("[API] Get products request from " ++ req.remoteAddr),
   Event.spanStart, Event.setHeaders, Event.countIssued] ++
  (match countQuery env.store with
   | Except.error e =>
       [Event.spanSetError e, Event.httpError 500 ("Internal server error")]
   | Except.ok totalCount =>
       [Event.selectIssued (normalizeLimit req.limitStr) (offsetOf req)] ++
       match selectQuery env.store (normalizeLimit req.limitStr) (offsetOf req) with
       | Except.error e =>
           [Event.spanSetError e, Event.httpError 500 ("Internal server error")]
       | Except.ok rows =>
           [Event.spanSetAttrs (normalizePage req.pageStr) (normalizeLimit req.limitStr)
              totalCount (totalPagesOf totalCount (normalizeLimit req.limitStr))
              (rows.length : Int)] ++
           (if env.encodeFails then []
            else [Event.writeBody
                    { products := some rows,
                      page := normalizePage req.pageStr,
                      limit := normalizeLimit req.limitStr,
                      totalPages := totalPagesOf totalCount (normalizeLimit req.limitStr),
                      count := totalCount }])) ++
  [Event.spanEnd]

/-- The success envelope written by an event trace, when any. -/
def responseOf (evs : List Event) : Option PaginatedResponse :=
  evs.findSome? fun e =>
    match e with
    | Event.writeBody r => some r
    | _ => none

/-- Whether an event writes to the response body. -/
def isWrite : Event → Bool
  | Event.httpError _ _ => true
  | Event.writeBody _ => true
  | _ => false

def isCountIssued : Event → Bool
  | Event.countIssued => true
  | _ => false

def isSelectIssued : Event → Bool
  | Event.selectIssued _ _ => true
  | _ => false

def isSpanEnd : Event → Bool
  | Event.spanEnd => true
  | _ => false

def isHttpError : Event → Bool
  | Event.httpError _ _ => true
  | _ => false

/-- A concrete product used in witness instantiations. -/
def sampleProduct : Product :=
  { id := 1, name := ("n"), category := ("c"), brand := ("b"), model := ("m"),
    description := ("d"), price := 0, created_at := ("t") }

/-- True when no body write occurs before the headers are set. -/
def headersBeforeWrites : List Event → Bool
  | [] => true
  | Event.setHeaders :: _ => true
  | e :: rest => !isWrite e && headersBeforeWrites rest



theorem normalizeLimit_pos (t : String) : 1 ≤ normalizeLimit t := by
  unfold normalizeLimit
  rcases h : atoi t with _ | l <;> simp
  split <;> omega

theorem normalizeLimit_le (t : String) : normalizeLimit t ≤ 100 := by
  unfold normalizeLimit
  rcases h : atoi t with _ | l <;> simp
  split <;> omega

theorem normalizePage_pos (s : String) : 1 ≤ normalizePage s := by
  unfold normalizePage
  rcases h : atoi s with _ | p <;> simp
  split <;> omega

theorem roundHalfEven_intCast (n : Int) : roundHalfEven (n : Rat) = n := by
  simp [roundHalfEven]

theorem le_roundHalfEven (q : Rat) : q - 1/2 ≤ (roundHalfEven q : Rat) := by
  have h1 := Int.floor_le q
  have h2 := Int.lt_floor_add_one q
  unfold roundHalfEven
  split_ifs with ha hb hc <;> push_cast <;> linarith

theorem roundHalfEven_le (q : Rat) : (roundHalfEven q : Rat) ≤ q + 1/2 := by
  have h1 := Int.floor_le q
  unfold roundHalfEven
  split_ifs with ha hb hc <;> push_cast <;> linarith

theorem roundHalfEven_le_ceil (q : Rat) : roundHalfEven q ≤ Int.ceil q := by
  have h1 := Int.floor_le q
  unfold roundHalfEven
  split_ifs with ha hb hc
  · exact Int.floor_le_ceil q
  · rw [Int.add_one_le_iff, Int.lt_ceil]
    linarith
  · exact Int.floor_le_ceil q
  · rw [Int.add_one_le_iff, Int.lt_ceil]
    linarith

theorem ulpScale_pos (x : Rat) : 0 < ulpScale x := zpow_pos (by norm_num) _

theorem floatRound_ge (x : Rat) (hx : 0 < x) : x - ulpScale x / 2 ≤ floatRound x := by
  rw [floatRound, if_neg (not_le.mpr hx)]
  have hs := ulpScale_pos x
  have h := mul_le_mul_of_nonneg_right (le_roundHalfEven (x / ulpScale x)) (le_of_lt hs)
  have hx' : x / ulpScale x * ulpScale x = x := div_mul_cancel₀ x (ne_of_gt hs)
  calc x - ulpScale x / 2 = (x / ulpScale x - 1/2) * ulpScale x := by
        rw [sub_mul, hx'] ; ring
    _ ≤ _ := h

theorem floatRound_le_of_le (x : Rat) (hx : 0 < x) (m : Int)
    (hm : x ≤ (m : Rat) * ulpScale x) : floatRound x ≤ (m : Rat) * ulpScale x := by
  rw [floatRound, if_neg (not_le.mpr hx)]
  have hs := ulpScale_pos x
  have h1 : x / ulpScale x ≤ (m : Rat) := by
    rw [div_le_iff₀ hs] ; exact hm
  have h2 : roundHalfEven (x / ulpScale x) ≤ m :=
    le_trans (roundHalfEven_le_ceil _) (Int.ceil_le.mpr h1)
  exact mul_le_mul_of_nonneg_right (by exact_mod_cast h2) (le_of_lt hs)

theorem floatRound_exact (x : Rat) (hx : 0 < x) (m : Int)
    (hm : x = (m : Rat) * ulpScale x) : floatRound x = x := by
  rw [floatRound, if_neg (not_le.mpr hx)]
  have hs : ulpScale x ≠ 0 := ne_of_gt (ulpScale_pos x)
  have hq : x / ulpScale x = (m : Rat) := by
    nth_rewrite 1 [hm]
    rw [mul_div_cancel_right₀ _ hs]
  rw [hq, roundHalfEven_intCast, ← hm]

theorem intCast_eq_mul_ulpScale (x : Rat) (k : Int) (he : Int.log 2 x ≤ 52) :
    (k : Rat) = ((k * 2 ^ (52 - Int.log 2 x).toNat : Int) : Rat) * ulpScale x := by
  have h52 : ((52 - Int.log 2 x).toNat : Int) = 52 - Int.log 2 x := Int.toNat_of_nonneg (by omega)
  rw [ulpScale, roundExp]
  push_cast
  rw [mul_assoc, ← zpow_natCast (2 : Rat) (52 - Int.log 2 x).toNat, h52,
    ← zpow_add₀ (two_ne_zero (α := Rat))]
  norm_num

theorem log_le_52 (x : Rat) (hx : 0 < x) (h : x < ((2 ^ 53 : Int) : Rat)) :
    Int.log 2 x ≤ 52 := by
  by_contra hc
  push_neg at hc
  have h1 : ((2 : Rat)) ^ (53 : Int) ≤ (2 : Rat) ^ Int.log 2 x :=
    zpow_le_zpow_right₀ (by norm_num) (by omega)
  have h2 := Int.zpow_log_le_self (b := 2) (r := x) (by norm_num) hx
  have h3 : ((2 ^ 53 : Int) : Rat) = (2 : Rat) ^ (53 : Int) := by
    push_cast
    norm_num
  rw [h3] at h
  have := lt_of_le_of_lt (le_trans h1 h2) h
  exact lt_irrefl _ this

theorem floatRound_intCast (n : Int) (h0 : 0 < n) (h53 : n < 2 ^ 53) :
    floatRound (n : Rat) = n := by
  have hx : (0 : Rat) < n := by exact_mod_cast h0
  have hlog : Int.log 2 ((n : Rat)) ≤ 52 := log_le_52 _ hx (by exact_mod_cast h53)
  exact floatRound_exact _ hx _ (intCast_eq_mul_ulpScale (n : Rat) n hlog)

theorem totalPagesOf_eq_ceil (a b : Int) (ha0 : 0 ≤ a) (ha : a < 2 ^ 53)
    (hb1 : 1 ≤ b) (hb : b ≤ 100) :
    totalPagesOf a b = Int.ceil ((a : Rat) / (b : Rat)) := by
  have hb0 : (0 : Rat) < b := by exact_mod_cast (by omega : (0:Int) < b)
  have hfb : floatRound (b : Rat) = b := floatRound_intCast b (by omega) (by omega)
  rcases eq_or_lt_of_le ha0 with h0 | h0
  · rw [totalPagesOf, ← h0]
    norm_num [floatRound]
  · have hxa : (0 : Rat) < a := by exact_mod_cast h0
    have hfa : floatRound (a : Rat) = a := floatRound_intCast a h0 ha
    rw [totalPagesOf, hfa, hfb]
    have hxpos : 0 < (a : Rat) / (b : Rat) := div_pos hxa hb0
    have hxlt : (a : Rat) / (b : Rat) < ((2 ^ 53 : Int) : Rat) := by
      have h1 : (a : Rat) / (b : Rat) ≤ (a : Rat) :=
        div_le_self (le_of_lt hxa) (by exact_mod_cast hb1)
      have h2 : (a : Rat) < ((2 ^ 53 : Int) : Rat) := by exact_mod_cast ha
      exact lt_of_le_of_lt h1 h2
    have hlog : Int.log 2 ((a : Rat) / (b : Rat)) ≤ 52 := log_le_52 _ hxpos hxlt
    have hxb : (a : Rat) / (b : Rat) * b = (a : Rat) := div_mul_cancel₀ _ (ne_of_gt hb0)
    have hsb : ulpScale ((a : Rat) / (b : Rat)) / 2 < 1 / (b : Rat) := by
      have h1 : (2:Rat) ^ (Int.log 2 ((a : Rat) / (b : Rat))) ≤ (a : Rat) / (b : Rat) :=
        Int.zpow_log_le_self (by norm_num) hxpos
      have h2 : (2:Rat) ^ (Int.log 2 ((a : Rat) / (b : Rat))) * b ≤ (a:Rat) := by
        calc (2:Rat) ^ (Int.log 2 ((a : Rat) / (b : Rat))) * b
            ≤ (a : Rat) / (b : Rat) * b := mul_le_mul_of_nonneg_right h1 (le_of_lt hb0)
          _ = a := hxb
      have ha2 : (a : Rat) < (2:Rat) ^ (53:Int) := by
        have h4 : ((2 ^ 53 : Int) : Rat) = (2:Rat) ^ (53:Int) := by push_cast ; norm_num
        rw [← h4] ; exact_mod_cast ha
      rw [div_lt_div_iff₀ (by norm_num) hb0, one_mul]
      rw [ulpScale, roundExp, zpow_sub₀ (two_ne_zero (α := Rat)), div_mul_eq_mul_div,
        div_lt_iff₀ (by positivity)]
      have h6 : (2:Rat) * (2:Rat) ^ (52:Int) = (2:Rat) ^ (53:Int) := by
        rw [show (53:Int) = 1 + 52 by norm_num, zpow_add₀ (two_ne_zero (α := Rat)), zpow_one]
      calc (2:Rat) ^ (Int.log 2 ((a : Rat) / (b : Rat))) * b ≤ (a:Rat) := h2
        _ < (2:Rat) ^ (53:Int) := ha2
        _ = 2 * (2:Rat) ^ (52:Int) := h6.symm
    obtain ⟨k, hk⟩ : ∃ k, Int.ceil ((a : Rat) / (b : Rat)) = k := ⟨_, rfl⟩
    rw [hk]
    by_cases hint : ((k : Int) : Rat) = (a : Rat) / (b : Rat)
    · have hrep := intCast_eq_mul_ulpScale ((a : Rat) / (b : Rat)) k hlog
      rw [hint] at hrep
      rw [floatRound_exact _ hxpos _ hrep, ← hint, Int.ceil_intCast]
    · have hle : (a : Rat) / (b : Rat) ≤ (k : Rat) := by rw [← hk] ; exact Int.le_ceil _
      have hlt : (a : Rat) / (b : Rat) < (k : Rat) := lt_of_le_of_ne hle (fun h => hint h.symm)
      have hgt : (k : Rat) - 1 < (a : Rat) / (b : Rat) := by
        have := Int.ceil_lt_add_one ((a : Rat) / (b : Rat))
        rw [hk] at this
        linarith
      have hfrac : 1 / (b : Rat) ≤ (a : Rat) / (b : Rat) - ((k : Rat) - 1) := by
        have h2 : (k - 1) * b < a := by
          have h1 : ((k - 1 : Int) : Rat) < (a : Rat) / (b : Rat) := by push_cast ; linarith
          have := (lt_div_iff₀ hb0).mp h1
          exact_mod_cast this
        have h3 : ((k - 1) * b + 1 : Int) ≤ a := by omega
        have h4 : ((k : Rat) - 1) * b + 1 ≤ (a : Rat) := by exact_mod_cast h3
        rw [div_le_iff₀ hb0, sub_mul, hxb]
        linarith
      have hrep := intCast_eq_mul_ulpScale ((a : Rat) / (b : Rat)) k hlog
      have hup : floatRound ((a : Rat) / (b : Rat)) ≤ (k : Rat) := by
        have h := floatRound_le_of_le _ hxpos _ (by rw [← hrep] ; exact hle)
        rw [← hrep] at h
        exact h
      have hlow : (k : Rat) - 1 < floatRound ((a : Rat) / (b : Rat)) := by
        have h := floatRound_ge _ hxpos
        linarith [hsb, hfrac]
      rw [Int.ceil_eq_iff]
      exact ⟨hlow, hup⟩

theorem log_eq_of_bounds (x : Rat) (n : Int)
    (h1 : (2:Rat) ^ n ≤ x) (h2 : x < (2:Rat) ^ (n+1)) :
    Int.log 2 x = n := by
  have hxpos : 0 < x := lt_of_lt_of_le (zpow_pos (by norm_num) n) h1
  have hA := Int.zpow_log_le_self (b := 2) (r := x) (by norm_num) hxpos
  have hB := Int.lt_zpow_succ_log_self (b := 2) (by norm_num) x
  have hC : Int.log 2 x < n + 1 :=
    (zpow_lt_zpow_iff_right₀ (by norm_num)).mp (lt_of_le_of_lt hA h2)
  have hD : n < Int.log 2 x + 1 :=
    (zpow_lt_zpow_iff_right₀ (by norm_num)).mp (lt_of_le_of_lt h1 hB)
  omega

theorem totalPagesOf_pow53 : totalPagesOf (2 ^ 53 + 1) 1 = 2 ^ 53 := by
  have hf1 : floatRound ((1 : Int) : Rat) = ((1:Int) : Rat) :=
    floatRound_intCast 1 (by norm_num) (by norm_num)
  have hlogx : Int.log 2 (((2 ^ 53 + 1 : Int) : Rat)) = 53 := by
    apply log_eq_of_bounds <;> push_cast <;> norm_num
  have hulpx : ulpScale (((2 ^ 53 + 1 : Int) : Rat)) = 2 := by
    rw [ulpScale, roundExp, hlogx]
    norm_num
  have hfloorq : Int.floor ((((2 ^ 53 + 1 : Int) : Rat)) / 2) = 2 ^ 52 := by
    rw [Int.floor_eq_iff]
    constructor <;> push_cast <;> norm_num
  have hq : (((2 ^ 53 + 1 : Int) : Rat)) / 2 - ((2 ^ 52 : Int) : Rat) = 1/2 := by
    push_cast
    norm_num
  have hrhe : roundHalfEven ((((2 ^ 53 + 1 : Int) : Rat)) / 2) = 2 ^ 52 := by
    rw [roundHalfEven, hfloorq, hq]
    norm_num
  have hfx : floatRound (((2 ^ 53 + 1 : Int) : Rat)) = ((2 ^ 53 : Int) : Rat) := by
    rw [floatRound, if_neg (by push_cast ; norm_num), hulpx, hrhe]
    push_cast
    norm_num
  have hlog2 : Int.log 2 (((2 ^ 53 : Int) : Rat)) = 53 := by
    apply log_eq_of_bounds <;> push_cast <;> norm_num
  have hfx2 : floatRound (((2 ^ 53 : Int) : Rat)) = ((2 ^ 53 : Int) : Rat) := by
    apply floatRound_exact _ (by push_cast ; norm_num) (2 ^ 52)
    rw [ulpScale, roundExp, hlog2]
    push_cast
    norm_num
  rw [totalPagesOf, hf1, Int.cast_one, div_one, hfx, hfx2, Int.ceil_intCast]

theorem getProducts_countFail (env : Env) (req : Request)
    (hc : env.store.countFails = true) :
    getProducts env req =
      [Event.logLine ("[API] Get products request from " ++ req.remoteAddr),
       Event.spanStart, Event.setHeaders, Event.countIssued,
       Event.spanSetError ("count query failed"),
       Event.httpError 500 ("Internal server error"), Event.spanEnd] := by
  simp [getProducts, countQuery, hc]

theorem getProducts_selectErr (env : Env) (req : Request)
    (hc : env.store.countFails = false)
    (hs : selectQuery env.store (normalizeLimit req.limitStr) (offsetOf req) =
      Except.error ("select query failed")) :
    getProducts env req =
      [Event.logLine ("[API] Get products request from " ++ req.remoteAddr),
       Event.spanStart, Event.setHeaders, Event.countIssued,
       Event.selectIssued (normalizeLimit req.limitStr) (offsetOf req),
       Event.spanSetError ("select query failed"),
       Event.httpError 500 ("Internal server error"), Event.spanEnd] := by
  simp [getProducts, countQuery, hc, hs]

theorem selectQuery_err_of_fails (st : Store) (limit offset : Int)
    (hs : st.selectFails = true) :
    selectQuery st limit offset = Except.error ("select query failed") := by
  simp [selectQuery, hs]

theorem selectQuery_ok (st : Store) (limit offset : Int)
    (hs : st.selectFails = false) (ho : 0 ≤ offset) :
    selectQuery st limit offset = Except.ok ((st.rows.drop offset.toNat).take limit.toNat) := by
  simp [selectQuery, hs, not_lt.mpr ho]

theorem getProducts_success (env : Env) (req : Request)
    (hc : env.store.countFails = false) (hs : env.store.selectFails = false)
    (ho : 0 ≤ offsetOf req) (he : env.encodeFails = false) :
    getProducts env req =
      [Event.logLine ("[API] Get products request from " ++ req.remoteAddr),
       Event.spanStart, Event.setHeaders, Event.countIssued,
       Event.selectIssued (normalizeLimit req.limitStr) (offsetOf req),
       Event.spanSetAttrs (normalizePage req.pageStr) (normalizeLimit req.limitStr)
         (env.store.rows.length : Int)
         (totalPagesOf (env.store.rows.length : Int) (normalizeLimit req.limitStr))
         ((fetchedRows env req).length : Int),
       Event.writeBody
         { products := some (fetchedRows env req),
           page := normalizePage req.pageStr,
           limit := normalizeLimit req.limitStr,
           totalPages := totalPagesOf (env.store.rows.length : Int) (normalizeLimit req.limitStr),
           count := (env.store.rows.length : Int) },
       Event.spanEnd] := by
  simp [getProducts, countQuery, hc, he,
    selectQuery_ok env.store (normalizeLimit req.limitStr) (offsetOf req) hs ho, fetchedRows]

theorem getProducts_encodeFail (env : Env) (req : Request)
    (hc : env.store.countFails = false) (hs : env.store.selectFails = false)
    (ho : 0 ≤ offsetOf req) (he : env.encodeFails = true) :
    getProducts env req =
      [Event.logLine ("[API] Get products request from " ++ req.remoteAddr),
       Event.spanStart, Event.setHeaders, Event.countIssued,
       Event.selectIssued (normalizeLimit req.limitStr) (offsetOf req),
       Event.spanSetAttrs (normalizePage req.pageStr) (normalizeLimit req.limitStr)
         (env.store.rows.length : Int)
         (totalPagesOf (env.store.rows.length : Int) (normalizeLimit req.limitStr))
         ((fetchedRows env req).length : Int),
       Event.spanEnd] := by
  simp [getProducts, countQuery, hc, he,
    selectQuery_ok env.store (normalizeLimit req.limitStr) (offsetOf req) hs ho, fetchedRows]




theorem selectQuery_err_of_neg (st : Store) (limit offset : Int)
    (hs : st.selectFails = false) (ho : offset < 0) :
    selectQuery st limit offset = Except.error ("select query failed") := by
  simp [selectQuery, hs, ho]

/-- C3: valid integer inputs with page at least 1 and limit in [1,100] pass
through the normalizer unchanged. -/
theorem claim3_normalizer_identity (s t : String) (p l : Int)
    (hp : atoi s = some p) (hl : atoi t = some l)
    (h1 : 1 ≤ p) (h2 : 1 ≤ l) (h3 : l ≤ 100) :
    normalizePage s = p ∧ normalizeLimit t = l := by
  constructor
  · unfold normalizePage
    rw [hp]
    show (if p < 1 then 1 else p) = p
    rw [if_neg (by omega)]
  · unfold normalizeLimit
    rw [hl]
    show (if l < 1 ∨ 100 < l then 10 else l) = l
    rw [if_neg (by omega)]

theorem claim3_witness :
    atoi ("3") = some 3 ∧ atoi ("57") = some 57 ∧
    normalizePage ("3") = 3 ∧ normalizeLimit ("57") = 57 := by
  refine ⟨rfl, rfl, ?_, ?_⟩
  · exact (claim3_normalizer_identity ("3") ("57") 3 57 rfl rfl (by decide) (by decide) (by decide)).1
  · exact (claim3_normalizer_identity ("3") ("57") 3 57 rfl rfl (by decide) (by decide) (by decide)).2

/-- A raw page input is invalid: unparsable or below 1. -/
def pageInvalid (s : String) : Prop :=
  atoi s = none ∨ ∃ p, atoi s = some p ∧ p < 1

/-- A raw limit input is invalid: unparsable or outside [1,100]. -/
def limitInvalid (t : String) : Prop :=
  atoi t = none ∨ ∃ l, atoi t = some l ∧ (l < 1 ∨ 100 < l)

/-- C4: invalid raw inputs (non-numeric, missing, page below 1, limit
outside [1,100]) normalize to the defaults page 1 and limit 10. -/
theorem claim4_normalizer_defaults (s t : String)
    (hs : pageInvalid s) (ht : limitInvalid t) :
    normalizePage s = 1 ∧ normalizeLimit t = 10 := by
  constructor
  · rcases hs with h | ⟨p, hp, hlt⟩
    · simp [normalizePage, h]
    · unfold normalizePage
      rw [hp]
      exact if_pos hlt
  · rcases ht with h | ⟨l, hl, hcond⟩
    · simp [normalizeLimit, h]
    · unfold normalizeLimit
      rw [hl]
      exact if_pos hcond

theorem claim4_witness :
    normalizePage ("-3") = 1 ∧ normalizeLimit ("abc") = 10 :=
  claim4_normalizer_defaults ("-3") ("abc")
    (Or.inr ⟨-3, rfl, by decide⟩) (Or.inl rfl)

/-- C5: whenever the fetch query is reached, its offset argument is
(page - 1) * limit in 64-bit machine arithmetic. -/
theorem claim5_offset (env : Env) (req : Request)
    (hc : env.store.countFails = false) :
    Event.selectIssued (normalizeLimit req.limitStr)
      (wrap64 ((normalizePage req.pageStr - 1) * normalizeLimit req.limitStr)) ∈
      getProducts env req := by
  rcases hq : selectQuery env.store (normalizeLimit req.limitStr) (offsetOf req) with e | rows <;>
    simp [getProducts, countQuery, hc, hq, offsetOf]

theorem claim5_witness :
    Event.selectIssued (normalizeLimit ("10"))
      (wrap64 ((normalizePage ("1") - 1) * normalizeLimit ("10"))) ∈
      getProducts ⟨⟨[], false, false⟩, false⟩ ⟨("1"), ("10"), ("w5")⟩ :=
  claim5_offset ⟨⟨[], false, false⟩, false⟩ ⟨("1"), ("10"), ("w5")⟩ rfl

/-- C7: on every path (success, count failure, fetch failure, encode
failure) the span is ended exactly once. -/
theorem claim7_span_end_once (env : Env) (req : Request) :
    (getProducts env req).countP isSpanEnd = 1 := by
  cases hc : env.store.countFails with
  | true => rw [getProducts_countFail env req hc] ; rfl
  | false =>
    cases hs : env.store.selectFails with
    | true =>
      rw [getProducts_selectErr env req hc (selectQuery_err_of_fails _ _ _ hs)] ; rfl
    | false =>
      rcases lt_or_le (offsetOf req) 0 with ho | ho
      · rw [getProducts_selectErr env req hc (selectQuery_err_of_neg _ _ _ hs ho)] ; rfl
      · cases he : env.encodeFails with
        | true => rw [getProducts_encodeFail env req hc hs ho he] ; rfl
        | false => rw [getProducts_success env req hc hs ho he] ; rfl

/-- C8: on every path the headers are set, and no body write (error or
success body) precedes the header setting. -/
theorem claim8_headers_first (env : Env) (req : Request) :
    headersBeforeWrites (getProducts env req) = true ∧
    Event.setHeaders ∈ getProducts env req := by
  constructor
  · rfl
  · simp [getProducts]

/-- C9: two executions with the same raw page and limit inputs against
the same store state produce the same envelope, whatever the remote
addresses. -/
theorem claim9_idempotent (st : Store) (ef : Bool) (p l a1 a2 : String) :
    responseOf (getProducts ⟨st, ef⟩ ⟨p, l, a1⟩) =
      responseOf (getProducts ⟨st, ef⟩ ⟨p, l, a2⟩) := rfl


/-- C1 fails as stated: at totalCount = 2^53 + 1 and limit 1 the float64
conversion of totalCount rounds (ties to even) to 2^53, so the totalPages
field of the response is 2^53 while the exact ceiling of
totalCount/limit is 2^53 + 1. -/
theorem claim1_counterexample :
    ∃ r, responseOf (getProducts
        ⟨⟨List.replicate (2 ^ 53 + 1) sampleProduct, false, false⟩, false⟩
        ⟨("1"), ("1"), ("cx")⟩) = some r ∧
      r.totalPages ≠ Int.ceil
        ((((List.replicate (2 ^ 53 + 1) sampleProduct).length : Int) : Rat) /
          ((normalizeLimit ("1")) : Rat)) ∧
      r.totalPages = 2 ^ 53 := by
  have hL : normalizeLimit ("1") = 1 := by decide
  have hN : ((List.replicate (2 ^ 53 + 1) sampleProduct).length : Int) = 2 ^ 53 + 1 := by
    rw [List.length_replicate]
    norm_num
  have hceil : Int.ceil ((((List.replicate (2 ^ 53 + 1) sampleProduct).length : Int) : Rat) /
      ((normalizeLimit ("1")) : Rat)) = 2 ^ 53 + 1 := by
    rw [hN, hL, Int.cast_one, div_one, Int.ceil_intCast]
  have hpages : totalPagesOf ((List.replicate (2 ^ 53 + 1) sampleProduct).length : Int)
      (normalizeLimit ("1")) = 2 ^ 53 := by
    rw [hN, hL]
    exact totalPagesOf_pow53
  rw [getProducts_success _ _ rfl rfl (by decide) rfl]
  refine ⟨_, rfl, ?_, ?_⟩
  · show totalPagesOf ((List.replicate (2 ^ 53 + 1) sampleProduct).length : Int)
        (normalizeLimit ("1")) ≠ Int.ceil
          ((((List.replicate (2 ^ 53 + 1) sampleProduct).length : Int) : Rat) /
            ((normalizeLimit ("1")) : Rat))
    rw [hpages, hceil]
    norm_num
  · exact hpages

/-- C1 (amended): for totalCount below 2^53 — where float64 represents
the count exactly — the totalPages field of a successful response is the
ceiling of totalCount divided by the normalized limit, the limit lies in
[1,100], and in particular 25 rows with limit 10 give 3 pages while 0
rows give 0 pages. -/
theorem claim1_total_pages (env : Env) (req : Request)
    (hc : env.store.countFails = false) (hs : env.store.selectFails = false)
    (ho : 0 ≤ offsetOf req) (he : env.encodeFails = false)
    (hcount : (env.store.rows.length : Int) < 2 ^ 53) :
    (∃ r, responseOf (getProducts env req) = some r ∧
       r.totalPages = Int.ceil (((env.store.rows.length : Int) : Rat) /
         (normalizeLimit req.limitStr : Rat))) ∧
    1 ≤ normalizeLimit req.limitStr ∧ normalizeLimit req.limitStr ≤ 100 ∧
    totalPagesOf 25 10 = 3 ∧ totalPagesOf 0 10 = 0 := by
  refine ⟨?_, normalizeLimit_pos _, normalizeLimit_le _, ?_, ?_⟩
  · rw [getProducts_success env req hc hs ho he]
    refine ⟨_, rfl, ?_⟩
    show totalPagesOf (env.store.rows.length : Int) (normalizeLimit req.limitStr) =
      Int.ceil (((env.store.rows.length : Int) : Rat) / (normalizeLimit req.limitStr : Rat))
    exact totalPagesOf_eq_ceil _ _ (Int.natCast_nonneg _) hcount
      (normalizeLimit_pos _) (normalizeLimit_le _)
  · rw [totalPagesOf_eq_ceil 25 10 (by norm_num) (by norm_num) (by norm_num) (by norm_num),
      Int.ceil_eq_iff]
    constructor <;> push_cast <;> norm_num
  · rw [totalPagesOf_eq_ceil 0 10 (by norm_num) (by norm_num) (by norm_num) (by norm_num)]
    push_cast
    norm_num

theorem claim1_witness :
    (∃ r, responseOf (getProducts ⟨⟨[], false, false⟩, false⟩ ⟨("1"), ("10"), ("w1")⟩) = some r ∧
       r.totalPages = Int.ceil ((((Store.mk [] false false).rows.length : Int) : Rat) /
         (normalizeLimit ("10") : Rat))) ∧
    1 ≤ normalizeLimit ("10") ∧ normalizeLimit ("10") ≤ 100 ∧
    totalPagesOf 25 10 = 3 ∧ totalPagesOf 0 10 = 0 :=
  claim1_total_pages ⟨⟨[], false, false⟩, false⟩ ⟨("1"), ("10"), ("w1")⟩
    rfl rfl (by decide) rfl (by decide)

/-- C2: when the count query or the fetch query fails, the handler
responds 500 with a generic body, writes no envelope, records the error
on the span before ending it, and issues each query at most once (the
count query exactly once). -/
theorem claim2_query_failure (env : Env) (req : Request)
    (h : env.store.countFails = true ∨ env.store.selectFails = true) :
    responseOf (getProducts env req) = none ∧
    (∃ m pre, getProducts env req =
        pre ++ [Event.spanSetError m, Event.httpError 500 ("Internal server error"),
          Event.spanEnd]) ∧
    (getProducts env req).countP isCountIssued = 1 ∧
    (getProducts env req).countP isSelectIssued ≤ 1 := by
  cases hc : env.store.countFails with
  | true =>
    rw [getProducts_countFail env req hc]
    exact ⟨rfl, ⟨("count query failed"),
      [Event.logLine ("[API] Get products request from " ++ req.remoteAddr),
       Event.spanStart, Event.setHeaders, Event.countIssued], rfl⟩, rfl, Nat.zero_le 1⟩
  | false =>
    have hs : env.store.selectFails = true := by
      rcases h with h | h
      · rw [hc] at h ; exact absurd h (by decide)
      · exact h
    rw [getProducts_selectErr env req hc (selectQuery_err_of_fails _ _ _ hs)]
    exact ⟨rfl, ⟨("select query failed"),
      [Event.logLine ("[API] Get products request from " ++ req.remoteAddr),
       Event.spanStart, Event.setHeaders, Event.countIssued,
       Event.selectIssued (normalizeLimit req.limitStr) (offsetOf req)], rfl⟩, rfl,
      Nat.le_refl 1⟩

theorem claim2_witness :
    responseOf (getProducts ⟨⟨[], true, false⟩, false⟩ ⟨("1"), ("10"), ("w2")⟩) = none ∧
    (∃ m pre, getProducts ⟨⟨[], true, false⟩, false⟩ ⟨("1"), ("10"), ("w2")⟩ =
        pre ++ [Event.spanSetError m, Event.httpError 500 ("Internal server error"),
          Event.spanEnd]) ∧
    (getProducts ⟨⟨[], true, false⟩, false⟩ ⟨("1"), ("10"), ("w2")⟩).countP isCountIssued = 1 ∧
    (getProducts ⟨⟨[], true, false⟩, false⟩ ⟨("1"), ("10"), ("w2")⟩).countP isSelectIssued ≤ 1 :=
  claim2_query_failure ⟨⟨[], true, false⟩, false⟩ ⟨("1"), ("10"), ("w2")⟩ (Or.inl rfl)

/-- C6: a successful response under a static snapshot returns at most
limit products, exactly min(limit, max(0, totalCount - offset)) of them,
is empty when the offset reaches past the total count, and writes no
error response. -/
theorem claim6_page_size (env : Env) (req : Request)
    (hc : env.store.countFails = false) (hs : env.store.selectFails = false)
    (ho : 0 ≤ offsetOf req) (he : env.encodeFails = false) :
    ∃ r, responseOf (getProducts env req) = some r ∧
      ∃ l, r.products = some l ∧
        (l.length : Int) ≤ normalizeLimit req.limitStr ∧
        (l.length : Int) = min (normalizeLimit req.limitStr)
          (max 0 ((env.store.rows.length : Int) - offsetOf req)) ∧
        ((env.store.rows.length : Int) ≤ offsetOf req → l = []) ∧
        (getProducts env req).countP isHttpError = 0 := by
  have hlim := normalizeLimit_pos req.limitStr
  have hlen : (fetchedRows env req).length =
      min (normalizeLimit req.limitStr).toNat
        (env.store.rows.length - (offsetOf req).toNat) := by
    simp [fetchedRows, List.length_take, List.length_drop]
  rw [getProducts_success env req hc hs ho he]
  refine ⟨_, rfl, fetchedRows env req, rfl, ?_, ?_, ?_, rfl⟩
  · omega
  · omega
  · intro hle
    have hdrop : env.store.rows.drop (offsetOf req).toNat = [] := by
      apply List.drop_eq_nil_of_le
      omega
    simp [fetchedRows, hdrop]

theorem claim6_witness :
    ∃ r, responseOf (getProducts ⟨⟨[sampleProduct, sampleProduct], false, false⟩, false⟩
        ⟨("2"), ("1"), ("w6")⟩) = some r ∧
      ∃ l, r.products = some l ∧
        (l.length : Int) ≤ normalizeLimit ("1") ∧
        (l.length : Int) = min (normalizeLimit ("1"))
          (max 0 (((Store.mk [sampleProduct, sampleProduct] false false).rows.length : Int) -
            offsetOf ⟨("2"), ("1"), ("w6")⟩)) ∧
        (((Store.mk [sampleProduct, sampleProduct] false false).rows.length : Int) ≤
            offsetOf ⟨("2"), ("1"), ("w6")⟩ → l = []) ∧
        (getProducts ⟨⟨[sampleProduct, sampleProduct], false, false⟩, false⟩
          ⟨("2"), ("1"), ("w6")⟩).countP isHttpError = 0 :=
  claim6_page_size ⟨⟨[sampleProduct, sampleProduct], false, false⟩, false⟩
    ⟨("2"), ("1"), ("w6")⟩ rfl rfl (by decide) rfl

/-- C10: a successful fetch of zero rows yields an envelope whose
products field is a non-nil empty slice, serialized as an empty JSON
array and never as null. -/
theorem claim10_empty_array (env : Env) (req : Request)
    (hc : env.store.countFails = false) (hs : env.store.selectFails = false)
    (ho : 0 ≤ offsetOf req) (he : env.encodeFails = false)
    (hempty : fetchedRows env req = []) :
    ∃ r, responseOf (getProducts env req) = some r ∧ r.products = some [] ∧
      encodeProductsField r.products = JsonVal.arr 0 ∧
      encodeProductsField r.products ≠ JsonVal.null := by
  rw [getProducts_success env req hc hs ho he]
  exact ⟨_, rfl, by simp [hempty], by simp [hempty, encodeProductsField],
    by simp [hempty, encodeProductsField]⟩

theorem claim10_witness :
    ∃ r, responseOf (getProducts ⟨⟨[], false, false⟩, false⟩ ⟨("1"), ("10"), ("wa")⟩) = some r ∧
      r.products = some [] ∧
      encodeProductsField r.products = JsonVal.arr 0 ∧
      encodeProductsField r.products ≠ JsonVal.null :=
  claim10_empty_array ⟨⟨[], false, false⟩, false⟩ ⟨("1"), ("10"), ("wa")⟩
    rfl rfl (by decide) rfl rfl


end Sample
